import Mathlib

/-!
Shallow embedding of `src/ava/shared/datatypes/datatypes.go` (package
`datatypes` of eviltoylet/abot) and verification of the specification
claims about it.

Modelling conventions:
- A Go `string` (a byte sequence; all inputs considered here are ASCII) is
  modelled as `GoStr := List Char`.
- A Go `StringSlice` (`[]string`) is `List GoStr`.
- Go `int` is `Int`.
- A fallible Go function returning `error` is modelled with `Except` /
  `Option`; a Go runtime panic (out-of-bounds slice) is modelled by an
  `Option` result being `none`.
- The standard-library behaviour the code leans on (`strings.Replace`,
  `strings.Join`, `regexp.ReplaceAllString` for the one fixed pattern
  `([^\\]([\\]\x7b2\x7d)*)\\"`, and `encoding/csv.Reader.Read` with default
  options) is embedded faithfully below, each piece next to its use.
-/

set_option autoImplicit false

/-- A Go string, as a list of characters (bytes). -/
abbrev GoStr := List Char

/-- `type StringSlice []string` (datatypes.go line 16). -/
abbrev StringSlice := List GoStr

/-! ### Encoding: `func (s StringSlice) Value() (driver.Value, error)`
(datatypes.go lines 186-194). -/

/-- `strings.Replace(elem, backslash, backslash-backslash-backslash, -1)`:
every backslash of the element is replaced by three backslashes. -/
def escapeBackslash : GoStr → GoStr
  | [] => []
  | c :: rest =>
    (if c = '\\' then ['\\', '\\', '\\'] else [c]) ++ escapeBackslash rest

/-- `strings.Replace(x, quote, backslash-quote, -1)`: every double quote is
replaced by a backslash followed by a double quote. -/
def escapeQuote : GoStr → GoStr
  | [] => []
  | c :: rest =>
    (if c = '"' then ['\\', '"'] else [c]) ++ escapeQuote rest

/-- The loop body of `Value`: the element is escaped (backslashes first,
then quotes) and wrapped in double quotes; the result is written back into
the slice (`s[i] = ...`). -/
def quoteElem (e : GoStr) : GoStr :=
  '"' :: escapeQuote (escapeBackslash e) ++ ['"']

/-- `strings.Join(s, comma)`. -/
def joinComma : StringSlice → GoStr
  | [] => []
  | [x] => x
  | x :: xs => x ++ ',' :: joinComma xs

/-- `func (s StringSlice) Value() (driver.Value, error)` (lines 186-194).
The Go loop assigns `s[i] = quoted(escaped(elem))`, mutating the caller's
backing array, and then joins the MUTATED slice.  The model returns the
pair (slice contents after the call, returned text).  The Go error result
is always nil and is omitted. -/
def StringSlice.Value (s : StringSlice) : StringSlice × GoStr :=
  let s2 := s.map quoteElem
  (s2, '{' :: joinComma s2 ++ ['}'])

/-! ### Decoding: `func (s *StringSlice) Scan(src interface) error`
(datatypes.go lines 168-184). -/

/-- Matcher for the tail of `quoteEscapeRegex = ([^\\]([\\]\x7b2\x7d)*)\\"`
after its first (non-backslash) character: tries to consume zero or more
pairs of backslashes followed by a backslash and a double quote.  Returns
the number of pairs and the remainder after the quote.  On a run of `m`
backslashes followed by a quote this succeeds exactly when `m` is odd,
matching the greedy leftmost-first semantics of the Go regexp. -/
def tryEsc : GoStr → Option (Nat × GoStr)
  | '\\' :: '"' :: rest => some (0, rest)
  | '\\' :: '\\' :: rest =>
    match tryEsc rest with
    | some (n, r) => some (n + 1, r)
    | none => none
  | _ => none

/-- `quoteEscapeRegex.ReplaceAllString(str, dollar1-quote-quote)` (line 173):
each leftmost non-overlapping match `X (\\)^2k \"` (X not a backslash) is
replaced by `X (\\)^2k ""`; scanning resumes after the match.  The fuel is
the input length; every step consumes at least one character, so it never
runs out. -/
def qerF : Nat → GoStr → GoStr
  | 0, s => s
  | _ + 1, [] => []
  | fuel + 1, c :: rest =>
    if c = '\\' then c :: qerF fuel rest
    else
      match tryEsc rest with
      | some (pairs, after) =>
        c :: (List.replicate (2 * pairs) '\\' ++ '"' :: '"' :: qerF fuel after)
      | none => c :: qerF fuel rest

/-- The regex replacement applied by `Scan`. -/
def quoteEscapeReplace (s : GoStr) : GoStr := qerF s.length s

/-- `strings.Replace(str, backslash-backslash, backslash, -1)` (line 174):
left-to-right non-overlapping replacement of each pair of backslashes by a
single backslash. -/
def collapseBS : GoStr → GoStr
  | '\\' :: '\\' :: rest => '\\' :: collapseBS rest
  | c :: rest => c :: collapseBS rest
  | [] => []

/-- Error outcomes of one `encoding/csv` `Read` call, as distinguished by
`Scan` (which retries nothing and only special-cases `EOF`). -/
inductive CsvErr where
  | eof
  | quote
  | bareQuote
deriving DecidableEq

/-- `encoding/csv` line normalization: every carriage-return/newline pair
becomes a newline before parsing. -/
def normCRLF : GoStr → GoStr
  | '\r' :: '\n' :: rest => '\n' :: normCRLF rest
  | c :: rest => c :: normCRLF rest
  | [] => []

/-- `encoding/csv` skips blank lines before the record. -/
def dropBlankLines : GoStr → GoStr
  | '\n' :: rest => dropBlankLines rest
  | s => s

/-- Quoted-field parser of `encoding/csv.Reader.Read` (default options,
`LazyQuotes` off), entered after the opening quote.  A doubled quote is a
literal quote; a closing quote must be followed by a comma (more fields),
a newline or the end of input (record done); anything else, or end of
input before the closing quote, is a quote error.  Returns the field and
`some rest` when a comma follows, `none` when the record ends. -/
def parseQuoted (acc : GoStr) : GoStr → Except CsvErr (GoStr × Option GoStr)
  | [] => .error .quote
  | '"' :: '"' :: rest => parseQuoted (acc ++ ['"']) rest
  | '"' :: ',' :: rest => .ok (acc, some rest)
  | '"' :: '\n' :: _ => .ok (acc, none)
  | ['"'] => .ok (acc, none)
  | '"' :: _ :: _ => .error .quote
  | c :: rest => parseQuoted (acc ++ [c]) rest

/-- Unquoted-field scan of `encoding/csv`: the field runs to the next
comma (`some rest`: more fields) or newline/end of input (`none`: record
done). -/
def splitUnquoted : GoStr → GoStr × Option GoStr
  | [] => ([], none)
  | ',' :: rest => ([], some rest)
  | '\n' :: _ => ([], none)
  | c :: rest =>
    let fr := splitUnquoted rest
    (c :: fr.1, fr.2)

/-- Field-by-field parsing of one CSV record.  A double quote inside a
non-quoted field is a bare-quote error (`LazyQuotes` off).  The fuel
bounds the number of fields; `length + 1` always suffices since each field
consumes at least its separator. -/
def parseFields : Nat → GoStr → Except CsvErr (List GoStr)
  | 0, _ => .error .quote
  | fuel + 1, input =>
    match input with
    | '"' :: rest =>
      match parseQuoted [] rest with
      | .error e => .error e
      | .ok (field, none) => .ok [field]
      | .ok (field, some rest2) =>
        match parseFields fuel rest2 with
        | .ok fields => .ok (field :: fields)
        | .error e => .error e
    | _ =>
      let fr := splitUnquoted input
      if '"' ∈ fr.1 then .error .bareQuote
      else
        match fr.2 with
        | none => .ok [fr.1]
        | some rest2 =>
          match parseFields fuel rest2 with
          | .ok fields => .ok (fr.1 :: fields)
          | .error e => .error e

/-- One `csv.NewReader(...).Read()` call on the given text: normalize line
endings, skip blank lines, report `EOF` on empty input, otherwise parse
one record. -/
def csvRead (input : GoStr) : Except CsvErr (List GoStr) :=
  let body := dropBlankLines (normCRLF input)
  match body with
  | [] => .error .eof
  | _ => parseFields (body.length + 1) body

/-- `func (s *StringSlice) Scan(src interface) error` (lines 168-184) on a
byte-sequence source.  After the regex replacement and the backslash-pair
collapse, the code slices `str[1 : len(str)-1]`, which panics (modelled as
`none`) whenever the normalized text has fewer than two characters.  A csv
`EOF` outcome sets the receiver to the empty (nil) slice; any other csv
error is returned and the receiver is left unset. -/
def scanResult : Except CsvErr (List GoStr) → Except CsvErr StringSlice
  | .ok slice => .ok slice
  | .error .eof => .ok []
  | .error e => .error e

/-- `func (s *StringSlice) Scan(src interface) error` (lines 168-184) on a
byte-sequence source: the regex replacement, then the backslash-pair
collapse, then the slice `str[1 : len(str)-1]` - which panics (modelled
as `none`) whenever the normalized text has fewer than two characters -
then one csv read dispatched through `scanResult`. -/
def StringSlice.Scan (src : GoStr) : Option (Except CsvErr StringSlice) :=
  let str2 := collapseBS (quoteEscapeReplace src)
  if 2 ≤ str2.length then
    some (scanResult (csvRead ((str2.drop 1).dropLast)))
  else none

/-- `func (s StringSlice) Last() string` (lines 196-201). -/
def StringSlice.Last (s : StringSlice) : GoStr :=
  if s.length = 0 then [] else s.getLastD []

/-! ### The class constants and the `StructuredInput` record
(datatypes.go lines 23-75). -/

/-- `CommandI int = iota + 1` (line 24). -/
def CommandI : Int := 1

/-- `ActorI` (line 25). -/
def ActorI : Int := 2

/-- `ObjectI` (line 26). -/
def ObjectI : Int := 3

/-- `TimeI` (line 27). -/
def TimeI : Int := 4

/-- `PlaceI` (line 28). -/
def PlaceI : Int := 5

/-- `NoneI` (line 29), the explicit ignore class. -/
def NoneI : Int := 6

/-- `type WordClass struct` (lines 101-104). -/
structure WordClass where
  Word : GoStr
  Class : Int
deriving DecidableEq

/-- `type StructuredInput struct` (lines 61-71). -/
structure StructuredInput where
  UserId : Int
  FlexId : GoStr
  FlexIdType : Int
  Sentence : GoStr
  Commands : StringSlice
  Actors : StringSlice
  Objects : StringSlice
  Times : StringSlice
  Places : StringSlice
deriving DecidableEq

/-- Errors returned by `Add`: `ErrInvalidClass` and
`ErrInvalidOddParameter` (lines 19-20); the latter is the error `Add`
returns for an empty batch (the spec's InvalidArgument). -/
inductive AddErr where
  | invalidClass
  | invalidOddParameter
deriving DecidableEq

/-- The `for _, w := range wc` loop of `Add` (lines 112-130): dispatch on
the class, appending the word to the matching list, skipping `NoneI`, and
stopping with `ErrInvalidClass` on anything else.  The state reached so
far is kept (no rollback). -/
def addLoop (si : StructuredInput) : List WordClass → StructuredInput × Option AddErr
  | [] => (si, none)
  | w :: rest =>
    if w.Class = CommandI then
      addLoop { si with Commands := si.Commands ++ [w.Word] } rest
    else if w.Class = ActorI then
      addLoop { si with Actors := si.Actors ++ [w.Word] } rest
    else if w.Class = ObjectI then
      addLoop { si with Objects := si.Objects ++ [w.Word] } rest
    else if w.Class = TimeI then
      addLoop { si with Times := si.Times ++ [w.Word] } rest
    else if w.Class = PlaceI then
      addLoop { si with Places := si.Places ++ [w.Word] } rest
    else if w.Class = NoneI then
      addLoop si rest
    else
      (si, some AddErr.invalidClass)

/-- `func (si StructuredInput) Add(wc []WordClass) error`
(lines 108-132): an empty batch fails with `ErrInvalidOddParameter` before
any mutation; otherwise the loop above runs.  Returns the receiver state
after the call together with the error result. -/
def StructuredInput.Add (si : StructuredInput) (wc : List WordClass) :
    StructuredInput × Option AddErr :=
  if wc.length = 0 then (si, some AddErr.invalidOddParameter)
  else addLoop si wc

/-- `var Pronouns map[string]int` (lines 46-57); a Go map read returns the
zero value 0 for a missing key. -/
def pronounsVal (w : GoStr) : Int :=
  if w = "me".data then ActorI
  else if w = "us".data then ActorI
  else if w = "you".data then ActorI
  else if w = "him".data then ActorI
  else if w = "her".data then ActorI
  else if w = "them".data then ActorI
  else if w = "it".data then ObjectI
  else if w = "that".data then ObjectI
  else if w = "there".data then PlaceI
  else if w = "then".data then TimeI
  else 0

/-- One `for _, w := range list` loop of `Pronouns` (lines 137-158),
appending to the accumulator each word whose map value is nonzero. -/
def pronounLoop (p : List GoStr) : List GoStr → List GoStr
  | [] => p
  | w :: rest =>
    pronounLoop (if pronounsVal w ≠ 0 then p ++ [w] else p) rest

/-- `func (si StructuredInput) Pronouns() []string` (lines 136-159):
scans Objects, then Actors, then Times, then Places, starting from the
empty (non-nil) slice. -/
def StructuredInput.Pronouns (si : StructuredInput) : List GoStr :=
  pronounLoop (pronounLoop (pronounLoop (pronounLoop [] si.Objects) si.Actors) si.Times) si.Places

/-- `strings.Join(xs, comma-space)` as used by `String`. -/
def joinCommaSpace : StringSlice → GoStr
  | [] => []
  | [x] => x
  | x :: xs => x ++ ',' :: ' ' :: joinCommaSpace xs

/-- `func (si StructuredInput) String() string` (lines 81-99): a newline,
then one label line per non-empty list, then `s[:len(s)-1] + newline`.
The built string always starts with a newline so `len(s) >= 1` and the Go
slice `s[:len(s)-1]`, modelled by `dropLast`, never panics. -/
def StructuredInput.String (si : StructuredInput) : GoStr :=
  let s0 : GoStr := ['\n']
  let s1 := if si.Commands.length > 0 then s0 ++ "Command: ".data ++ joinCommaSpace si.Commands ++ ['\n'] else s0
  let s2 := if si.Actors.length > 0 then s1 ++ "Actors: ".data ++ joinCommaSpace si.Actors ++ ['\n'] else s1
  let s3 := if si.Objects.length > 0 then s2 ++ "Objects: ".data ++ joinCommaSpace si.Objects ++ ['\n'] else s2
  let s4 := if si.Times.length > 0 then s3 ++ "Times: ".data ++ joinCommaSpace si.Times ++ ['\n'] else s3
  let s5 := if si.Places.length > 0 then s4 ++ "Places: ".data ++ joinCommaSpace si.Places ++ ['\n'] else s4
  s5.dropLast ++ ['\n']

/-! ### Spec-side helper notions used to state the claims. -/

/-- The six class values `Add` recognizes. -/
def validClasses : List Int := [CommandI, ActorI, ObjectI, TimeI, PlaceI, NoneI]

/-- The words of a batch carrying a given class, in arrival order,
duplicates kept. -/
def classWords (c : Int) (wc : List WordClass) : List GoStr :=
  (wc.filter (fun w => decide (w.Class = c))).map WordClass.Word

/-- The receiver state after the words of a batch have been routed to
their five lists (all other fields untouched). -/
def afterAdds (si : StructuredInput) (wc : List WordClass) : StructuredInput :=
  { si with
    Commands := si.Commands ++ classWords CommandI wc,
    Actors := si.Actors ++ classWords ActorI wc,
    Objects := si.Objects ++ classWords ObjectI wc,
    Times := si.Times ++ classWords TimeI wc,
    Places := si.Places ++ classWords PlaceI wc }

/-- The fixed pronoun vocabulary of the spec (the keys of the `Pronouns`
map). -/
def pronounWords : List GoStr :=
  ["me".data, "us".data, "you".data, "him".data, "her".data, "them".data,
   "it".data, "that".data, "there".data, "then".data]

/-- One rendered category line as the spec describes it: nothing when the
list is empty, otherwise the label, the comma-joined elements and a
newline. -/
def catLine (label : GoStr) (xs : StringSlice) : GoStr :=
  if xs.length > 0 then label ++ joinCommaSpace xs ++ ['\n'] else []

/-- A `StructuredInput` with empty identity fields and empty lists. -/
def emptySI : StructuredInput := ⟨0, [], 0, [], [], [], [], [], []⟩

/-- The concrete six-pair batch of claim C4. -/
def wcExample : List WordClass :=
  [⟨"go".data, CommandI⟩, ⟨"him".data, ActorI⟩, ⟨"car".data, ObjectI⟩,
   ⟨"noon".data, TimeI⟩, ⟨"park".data, PlaceI⟩, ⟨"ignored".data, NoneI⟩]

/-! ### Helper lemmas. -/

/-- Processing a batch whose prefix is entirely recognized routes that
prefix into the five lists and continues with the remainder. -/
theorem addLoop_valid_prefix (good : List WordClass) :
    ∀ (si : StructuredInput) (tail : List WordClass),
      (∀ w ∈ good, w.Class ∈ validClasses) →
      addLoop si (good ++ tail) = addLoop (afterAdds si good) tail := by
  induction good with
  | nil =>
    intro si tail _
    simp [afterAdds, classWords]
  | cons w rest ih =>
    intro si tail h
    have hw : w.Class ∈ validClasses := h w (by simp)
    have hrest : ∀ x ∈ rest, x.Class ∈ validClasses := fun x hx => h x (by simp [hx])
    have key := fun si2 : StructuredInput => ih si2 tail hrest
    simp only [validClasses, List.mem_cons, List.not_mem_nil, or_false] at hw
    rcases hw with h1 | h1 | h1 | h1 | h1 | h1 <;>
      simp [List.cons_append, addLoop, h1, CommandI, ActorI, ObjectI, TimeI,
        PlaceI, NoneI, key, afterAdds, classWords, List.filter_cons,
        List.append_assoc]

/-- The accumulator lemma for one pronoun-scanning loop. -/
theorem pronounLoop_eq (ws : List GoStr) :
    ∀ p, pronounLoop p ws = p ++ ws.filter (fun w => decide (pronounsVal w ≠ 0)) := by
  induction ws with
  | nil => intro p; simp [pronounLoop]
  | cons w rest ih =>
    intro p
    by_cases h : pronounsVal w ≠ 0 <;>
      simp [pronounLoop, h, ih, List.filter_cons, List.append_assoc]

/-- The nonzero entries of the `Pronouns` map are exactly the ten pronoun
words. -/
theorem pronounsVal_ne_zero (w : GoStr) : pronounsVal w ≠ 0 ↔ w ∈ pronounWords := by
  by_cases h1 : w = "me".data
  · subst h1; decide
  by_cases h2 : w = "us".data
  · subst h2; decide
  by_cases h3 : w = "you".data
  · subst h3; decide
  by_cases h4 : w = "him".data
  · subst h4; decide
  by_cases h5 : w = "her".data
  · subst h5; decide
  by_cases h6 : w = "them".data
  · subst h6; decide
  by_cases h7 : w = "it".data
  · subst h7; decide
  by_cases h8 : w = "that".data
  · subst h8; decide
  by_cases h9 : w = "there".data
  · subst h9; decide
  by_cases h10 : w = "then".data
  · subst h10; decide
  have hv : pronounsVal w = 0 := by
    simp [pronounsVal, h1, h2, h3, h4, h5, h6, h7, h8, h9, h10]
  simp [hv, pronounWords, h1, h2, h3, h4, h5, h6, h7, h8, h9, h10]


/-! ### The claims. -/

/-- Claim C1 (code bug): the round-trip law of the codec FAILS on the
code.  For the one-element list whose element is a single backslash,
`Value` produces the seven-character text brace, quote, backslash,
backslash, backslash, quote, brace, and `Scan` applied to that text
returns a csv quote error instead of succeeding with the original
list. -/
theorem C1_roundtrip_fails_on_backslash :
    (StringSlice.Value [['\\']]).2 = ['{', '"', '\\', '\\', '\\', '"', '}'] ∧
    StringSlice.Scan ((StringSlice.Value [['\\']]).2) =
      some (Except.error CsvErr.quote) :=
  ⟨rfl, rfl⟩

/-- Claim C2 (code bug): `Value` is NOT pure.  Calling it on the list
whose single element is the letter a rewrites that element in place to a
quoted form, and calling `Value` again on the resulting slice returns a
different text than the first call did. -/
theorem C2_value_mutates_receiver :
    (StringSlice.Value [['a']]).1 ≠ [['a']] ∧
    (StringSlice.Value ((StringSlice.Value [['a']]).1)).2 ≠
      (StringSlice.Value [['a']]).2 := by
  decide

/-- Claim C3: `Value` of the empty list is exactly the two-character text
brace-brace (and leaves the empty list unchanged), and `Scan` of that
text succeeds with the empty list. -/
theorem C3_empty_list_wire_form :
    StringSlice.Value [] = ([], ['{', '}']) ∧
    StringSlice.Scan ['{', '}'] = some (Except.ok []) :=
  ⟨rfl, rfl⟩

/-- Claim C4: on a non-empty batch all of whose classes are recognized,
`Add` succeeds and appends every word, in arrival order, to exactly the
list matching its class (`afterAdds`: Commands gets the Command-classed
words and so on; Ignore-classed words go nowhere; all other fields are
untouched). -/
theorem C4_classification_routing (si : StructuredInput) (wc : List WordClass)
    (hne : wc ≠ []) (hval : ∀ w ∈ wc, w.Class ∈ validClasses) :
    si.Add wc = (afterAdds si wc, none) := by
  have h := addLoop_valid_prefix wc si [] hval
  rw [List.append_nil] at h
  simp only [StructuredInput.Add]
  rw [if_neg (by simpa [List.length_eq_zero] using hne), h, addLoop]

/-- Witness for C4: the six-pair example batch on an empty record yields
exactly the five singleton lists of the claim and no error. -/
theorem C4_witness :
    emptySI.Add wcExample =
      ({ emptySI with
          Commands := ["go".data],
          Actors := ["him".data],
          Objects := ["car".data],
          Times := ["noon".data],
          Places := ["park".data] }, none) := by
  rw [C4_classification_routing emptySI wcExample (by decide) (by decide)]
  decide

/-- Claim C5: `Add` on an empty batch fails with the invalid-argument
error (`ErrInvalidOddParameter`) and leaves the whole receiver
unchanged. -/
theorem C5_add_empty_batch (si : StructuredInput) :
    si.Add [] = (si, some AddErr.invalidOddParameter) := by
  simp [StructuredInput.Add]

/-- Witness for C5 at the empty record. -/
theorem C5_witness :
    emptySI.Add [] = (emptySI, some AddErr.invalidOddParameter) :=
  C5_add_empty_batch emptySI

/-- Claim C6: when the first unrecognized class sits after a recognized
prefix, `Add` fails with the invalid-class error, the pairs after it are
not processed, and the appends performed for the prefix remain in
place. -/
theorem C6_add_failfast_no_rollback (si : StructuredInput)
    (good : List WordClass) (bad : WordClass) (rest : List WordClass)
    (hgood : ∀ w ∈ good, w.Class ∈ validClasses)
    (hbad : bad.Class ∉ validClasses) :
    si.Add (good ++ bad :: rest) =
      (afterAdds si good, some AddErr.invalidClass) := by
  have h := addLoop_valid_prefix good si (bad :: rest) hgood
  have hb : addLoop (afterAdds si good) (bad :: rest) =
      (afterAdds si good, some AddErr.invalidClass) := by
    simp only [validClasses, List.mem_cons, List.not_mem_nil, or_false] at hbad
    push_neg at hbad
    obtain ⟨hb1, hb2, hb3, hb4, hb5, hb6⟩ := hbad
    simp [addLoop, hb1, hb2, hb3, hb4, hb5, hb6]
  simp only [StructuredInput.Add]
  rw [if_neg (by simp), h, hb]

/-- Witness for C6: adding the pair (foo, Command) followed by a pair
with the unrecognized class 7 fails with the invalid-class error while
Commands already contains foo. -/
theorem C6_witness :
    emptySI.Add [⟨"foo".data, CommandI⟩, ⟨"bar".data, 7⟩] =
      ({ emptySI with Commands := ["foo".data] }, some AddErr.invalidClass) := by
  have h := C6_add_failfast_no_rollback emptySI [⟨"foo".data, CommandI⟩]
    ⟨"bar".data, 7⟩ [] (by decide) (by decide)
  exact h.trans (by decide)

/-- Claim C7: `Pronouns` returns, in encounter order, exactly the
elements of Objects, then Actors, then Times, then Places that belong to
the fixed ten-word pronoun vocabulary (Commands are never scanned, the
result is a plain value of the receiver, empty when nothing matches);
and on the concrete example it returns it, me, then, there. -/
theorem C7_pronoun_extraction :
    (∀ si : StructuredInput,
      si.Pronouns =
        (si.Objects ++ si.Actors ++ si.Times ++ si.Places).filter
          (fun w => decide (w ∈ pronounWords))) ∧
    (StructuredInput.mk 0 [] 0 [] [] ["me".data, "dog".data]
        ["it".data, "car".data] ["then".data] ["there".data]).Pronouns =
      ["it".data, "me".data, "then".data, "there".data] := by
  constructor
  · intro si
    have hp : ∀ w : GoStr,
        decide (pronounsVal w ≠ 0) = decide (w ∈ pronounWords) :=
      fun w => decide_eq_decide.mpr (pronounsVal_ne_zero w)
    simp [StructuredInput.Pronouns, pronounLoop_eq, hp,
      List.filter_append, List.append_assoc]
  · decide

/-- Claim C8: `String` renders a leading newline then one label line per
non-empty list, in the fixed order Command, Actors, Objects, Times,
Places, with comma-joined elements, empty categories omitted and no
trailing blank line; a record whose only non-empty list is Actors = [me]
renders as exactly newline, Actors-colon-space-me, newline. -/
theorem C8_rendering :
    (∀ si : StructuredInput,
      si.String = '\n' ::
        (catLine "Command: ".data si.Commands ++
         catLine "Actors: ".data si.Actors ++
         catLine "Objects: ".data si.Objects ++
         catLine "Times: ".data si.Times ++
         catLine "Places: ".data si.Places)) ∧
    (StructuredInput.mk 0 [] 0 [] [] ["me".data] [] [] []).String =
      "\nActors: me\n".data := by
  constructor
  · intro si
    simp only [StructuredInput.String, catLine]
    split_ifs <;>
      simp [List.dropLast_cons_of_ne_nil, List.dropLast_append_of_ne_nil,
        List.append_assoc]
  · decide

/-- Counterexample for C9: on the empty byte input `Scan` reaches the
slice expression with a text of length 0 and performs an out-of-bounds
slice access (modelled as `none`), so it is not total at the public
interface. -/
theorem C9_counterexample : StringSlice.Scan [] = none := rfl

/-- Claim C9 amended: `Scan` completes without the out-of-bounds slice
panic exactly when the normalized text (after the quote-escape
replacement and the backslash-pair collapse) has at least two
characters; on those inputs it always returns either a list or an
error. -/
theorem C9_scan_totality (src : GoStr) :
    (StringSlice.Scan src).isSome ↔
      2 ≤ (collapseBS (quoteEscapeReplace src)).length := by
  simp only [StringSlice.Scan]
  by_cases h : 2 ≤ (collapseBS (quoteEscapeReplace src)).length <;> simp [h]

/-- Witness for C9 at a concrete normalized-length-2 input: scanning the
empty-array text succeeds. -/
theorem C9_witness :
    (StringSlice.Scan ['{', '}']).isSome ∧
    2 ≤ (collapseBS (quoteEscapeReplace ['{', '}'])).length :=
  ⟨(C9_scan_totality ['{', '}']).mpr (by decide), by decide⟩

/-- Claim C10: `Last` is total: it returns the final element of a
non-empty slice and the empty string on an empty slice. -/
theorem C10_last_total :
    StringSlice.Last [] = [] ∧
    ∀ (l : StringSlice) (x : GoStr), StringSlice.Last (l ++ [x]) = x := by
  refine ⟨rfl, fun l x => ?_⟩
  simp [StringSlice.Last]
